import Mathlib

/-!
Shallow embedding of src/mmap_overhead_estimator.c (a single-file C program
estimating page-table overhead of mmap strategies), together with theorems
settling the frozen claims about it.

Modelling conventions:
  - the target platform is 64-bit Linux: size_t and unsigned long long are
    64-bit, so machine values live in Nat with explicit reduction mod 2^64
    where C arithmetic can wrap;
  - C strings are List Char (the bytes before the terminating NUL);
  - strtoull with base 10 is modelled after the C standard: skip leading
    whitespace, an optional single sign, then the longest digit run; if no
    digits were consumed the end pointer equals the start pointer; a minus
    sign negates the value in the unsigned type; ERANGE is reported when the
    digit run exceeds ULLONG_MAX. errno is 0 when parse_size runs (main calls
    it before any errno-setting operation), so the errno conjuncts of the C
    checks reduce as commented below;
  - the environment-dependent results of mmap, madvise, munmap and the two
    /proc probes are inputs of the main model (structure Env), and the
    observable behaviour (exit code, mmap/munmap calls, emitted diagnostics
    with their target streams) is its output (structure RunResult).
-/

namespace MmapEstimator

/-- ULLONG_MAX on the target platform (64-bit). -/
def ULLONG_MAX : Nat := 2 ^ 64 - 1

/-- PTE_SIZE from the source (bytes per page-table entry). -/
def PTE_SIZE : Nat := 8

/-- PAGE_SIZE_4K from the source. -/
def PAGE_SIZE_4K : Nat := 4 * 1024

/-- PAGE_SIZE_2M from the source. -/
def PAGE_SIZE_2M : Nat := 2 * 1024 * 1024

/-- PAGE_SIZE_1G from the source. -/
def PAGE_SIZE_1G : Nat := 1 * 1024 * 1024 * 1024

/-- C isspace in the default locale: space, \t, \n, \v, \f, \r. -/
def isSpaceC (c : Char) : Bool :=
  c.toNat = 32 || c.toNat = 9 || c.toNat = 10 || c.toNat = 11 ||
  c.toNat = 12 || c.toNat = 13

/-- C isdigit: the characters 0 through 9. -/
def isDigitC (c : Char) : Bool :=
  48 ≤ c.toNat && c.toNat ≤ 57

/-- Numeric value of a run of decimal digit characters. -/
def digitsVal (ds : List Char) : Nat :=
  ds.foldl (fun a c => 10 * a + (c.toNat - 48)) 0

/-- The input after the leading whitespace strtoull skips. -/
def afterSpaces (s : List Char) : List Char :=
  s.drop (s.takeWhile isSpaceC).length

/-- Number of sign characters strtoull consumes (zero or one). -/
def signLen (l : List Char) : Nat :=
  match l with
  | c :: _ => if c.toNat = 43 || c.toNat = 45 then 1 else 0
  | [] => 0

/-- Whether the consumed sign is a minus sign. -/
def isNegSign (l : List Char) : Bool :=
  match l with
  | c :: _ => c.toNat = 45
  | [] => false

/-- The input after whitespace and the optional sign. -/
def afterSign (l : List Char) : List Char :=
  l.drop (signLen l)

/-- Result of the strtoull model: the returned value, how many characters of
the input were consumed (the end-pointer offset; 0 when no conversion was
performed), and whether errno was set to ERANGE. -/
structure StrtoullResult where
  val : Nat
  consumed : Nat
  erange : Bool

/-- Model of strtoull(s, &endptr, 10) on a 64-bit platform: skip whitespace,
one optional sign, then the longest run of decimal digits. No digits means no
conversion (value 0, end pointer = start). A digit run above ULLONG_MAX
clamps to ULLONG_MAX with ERANGE; a minus sign negates modulo 2^64. -/
def strtoull10 (s : List Char) : StrtoullResult :=
  if ((afterSign (afterSpaces s)).takeWhile isDigitC).length = 0 then
    { val := 0, consumed := 0, erange := false }
  else if ULLONG_MAX < digitsVal ((afterSign (afterSpaces s)).takeWhile isDigitC) then
    { val := ULLONG_MAX,
      consumed := (s.takeWhile isSpaceC).length + signLen (afterSpaces s) +
        ((afterSign (afterSpaces s)).takeWhile isDigitC).length,
      erange := true }
  else
    { val :=
        if isNegSign (afterSpaces s) then
          (2 ^ 64 - digitsVal ((afterSign (afterSpaces s)).takeWhile isDigitC)) % 2 ^ 64
        else digitsVal ((afterSign (afterSpaces s)).takeWhile isDigitC),
      consumed := (s.takeWhile isSpaceC).length + signLen (afterSpaces s) +
        ((afterSign (afterSpaces s)).takeWhile isDigitC).length,
      erange := false }

/-- The distinct failure messages parse_size prints to stderr before
returning its 0 sentinel, in source order. -/
inductive ParseErr where
  | InvalidNumber    -- "Not a valid number"
  | LiteralTooLarge  -- "is too large" (ERANGE from strtoull)
  | InvalidSuffix    -- "Invalid size suffix"
  | TrailingGarbage  -- "Trailing characters after suffix"
  | Overflow         -- "causes overflow" (value times multiplier)
  | ZeroSize         -- "Mapping size cannot be zero"
deriving DecidableEq

/-- The multiplier the switch statement in parse_size assigns for a suffix
character; 0 encodes the default (invalid suffix) branch. -/
def suffix_multiplier (c : Char) : Nat :=
  if c = 'G' || c = 'g' then 1024 * 1024 * 1024
  else if c = 'M' || c = 'm' then 1024 * 1024
  else if c = 'K' || c = 'k' then 1024
  else 0

/-- The suffix-handling block of parse_size, applied to the input seen from
the end pointer: no remaining character keeps multiplier 1; one recognized
letter selects its multiplier; an unrecognized letter is InvalidSuffix (none);
anything after the letter is TrailingGarbage (none). The two none cases are
told apart by suffixErr below. -/
def suffixMult (l : List Char) : Option Nat :=
  match l with
  | [] => some 1
  | c :: rest =>
    if suffix_multiplier c = 0 then none
    else if rest.isEmpty then some (suffix_multiplier c) else none

/-- Which error the suffix block reports when suffixMult is none. -/
def suffixErr (l : List Char) : ParseErr :=
  match l with
  | [] => ParseErr.ZeroSize -- unreachable: suffixMult [] is some
  | c :: _ =>
    if suffix_multiplier c = 0 then ParseErr.InvalidSuffix
    else ParseErr.TrailingGarbage

/-- Faithful translation of parse_size (src lines 31-81), with each of the
return-0 failure paths tagged by its stderr message. Notes: the first C check
is (endptr == size_str || (val_ull == 0 && errno != 0)); errno is 0 on entry
and set only for ERANGE (where the value is ULLONG_MAX, nonzero), so the
second disjunct never fires and the check is exactly consumed = 0. The final
cast (size_t)val_ull is the identity on 64-bit. -/
def parse_size_res (size_str : List Char) : Except ParseErr Nat :=
  if (strtoull10 size_str).consumed = 0 then Except.error ParseErr.InvalidNumber
  else if (strtoull10 size_str).val = ULLONG_MAX ∧ (strtoull10 size_str).erange = true then
    Except.error ParseErr.LiteralTooLarge
  else
    match suffixMult (size_str.drop (strtoull10 size_str).consumed) with
    | none => Except.error (suffixErr (size_str.drop (strtoull10 size_str).consumed))
    | some multiplier =>
      if ULLONG_MAX / multiplier < (strtoull10 size_str).val then
        Except.error ParseErr.Overflow
      else if (strtoull10 size_str).val * multiplier % 2 ^ 64 = 0 ∧
          (strtoull10 size_str).val = 0 then
        Except.error ParseErr.ZeroSize
      else Except.ok ((strtoull10 size_str).val * multiplier % 2 ^ 64)

/-- parse_size as the C caller sees it: the byte count, with 0 as the
in-band failure sentinel (every error path of the C function returns 0). -/
def parse_size (size_str : List Char) : Nat :=
  match parse_size_res size_str with
  | Except.ok n => n
  | Except.error _ => 0

/-- Faithful translation of calculate_overhead (src lines 113-118): size_t
ceiling division (total_size + page_size - 1) / page_size, where the addition
wraps mod 2^64, times PTE_SIZE, which also wraps. -/
def calculate_overhead (total_size page_size : Nat) : Nat :=
  if page_size = 0 then 0
  else
    let num_pages := ((total_size + page_size - 1) % 2 ^ 64) / page_size
    (num_pages * PTE_SIZE) % 2 ^ 64

/-- PageSizeMode from the source. -/
inductive PageSizeMode where
  | MODE_4K
  | MODE_THP
  | MODE_2M
  | MODE_1G
deriving DecidableEq

/-- ThpStatus from the source. -/
inductive ThpStatus where
  | THP_UNKNOWN
  | THP_ALWAYS
  | THP_MADVISE
  | THP_NEVER
deriving DecidableEq

/-- The two output streams the program writes to. -/
inductive Fd where
  | stdout
  | stderr
deriving DecidableEq

/-- Tags for the messages main (and parse_size, via main) emits, in source
order. Grouped blocks of printf lines that always appear together share one
tag. -/
inductive Msg where
  | usage                -- usage text, argc != 3 (stderr)
  | errParseSize         -- the message parse_size printed on failure (stderr)
  | errInvalidMode       -- "Invalid mode" (stderr)
  | banner : PageSizeMode → Msg -- "Mode: ..." line (stdout)
  | errSizeNotAligned    -- "must be a multiple of the huge page size" (stderr)
  | warnThpNever         -- "System THP is set to never" (printf: stdout)
  | warnThpUnknown       -- "Could not determine system THP status" (printf: stdout)
  | errInitialVmpte      -- "Could not get initial VmPTE" (stderr)
  | initialVmpte         -- "Initial VmPTE" (stdout)
  | mappingSize          -- "Mapping size" (stdout)
  | mappingHeader        -- "--- Mapping Memory ---" (stdout)
  | errMmapFailed        -- "mmap failed" (stderr)
  | hintEnomem           -- HugeTLB pool hint for ENOMEM (stderr)
  | hintEinval           -- alignment and support hint for EINVAL (stderr)
  | warnMadvNoHugepage   -- "madvise(MADV_NOHUGEPAGE) failed" (stderr)
  | warnMadvHugepage     -- "madvise(MADV_HUGEPAGE) failed" (stderr)
  | touchingHeader       -- "--- Touching Memory ---" (stdout)
  | touchedCount         -- "Touched N strides" (stdout)
  | warnFinalVmpte       -- "Could not get final VmPTE" (stderr)
  | finalVmpteReport     -- final VmPTE, delta and note block (stdout)
  | overheadReport       -- theoretical overhead table and note block (stdout)
  | pidPrompt            -- "PID ... press Enter" (stdout)
  | unmapHeader          -- "--- Unmapping Memory ---" (stdout)
  | errMunmap            -- perror "munmap failed" (stderr)
deriving DecidableEq

/-- The mode-keyword dispatch of main (src lines 163-184): for a recognized
token, the PageSizeMode together with the huge_page_size and touch_step_size
variables it sets (huge_page_size stays 0 for the non-HugeTLB modes and
touch_step_size defaults to PAGE_SIZE_4K); none is the invalid-mode branch. -/
def mode_config (mode_str : List Char) : Option (PageSizeMode × Nat × Nat) :=
  if mode_str = "4k".data then some (PageSizeMode.MODE_4K, 0, PAGE_SIZE_4K)
  else if mode_str = "thp".data then some (PageSizeMode.MODE_THP, 0, PAGE_SIZE_4K)
  else if mode_str = "2m".data then
    some (PageSizeMode.MODE_2M, PAGE_SIZE_2M, PAGE_SIZE_2M)
  else if mode_str = "1g".data then
    some (PageSizeMode.MODE_1G, PAGE_SIZE_1G, PAGE_SIZE_1G)
  else none

/-- The touch loop of main (src lines 250-253): for (i = 0; i < map_size;
i += touch_step_size) writes one byte at offset i; the size_t increment wraps
mod 2^64. Modelled with fuel (one unit per iteration) so that the loop that
fails to terminate (possible only when the increment wraps) yields none; the
result is the list of touched offsets in order. -/
def touchLoopAux (map_size step : Nat) : Nat → Nat → Option (List Nat)
  | i, 0 => if i < map_size then none else some []
  | i, fuel + 1 =>
    if i < map_size then
      match touchLoopAux map_size step ((i + step) % 2 ^ 64) fuel with
      | some rest => some (i :: rest)
      | none => none
    else some []

/-- The touch loop started at offset 0; map_size + 1 units of fuel are enough
for every terminating run (each iteration advances i by step ≥ 1 while no
wrap occurs). -/
def touchLoop (map_size step : Nat) : Option (List Nat) :=
  touchLoopAux map_size step 0 (map_size + 1)

/-- The environment-dependent outcomes main observes in one run: the THP
policy probe, the two VmPTE probes (negative = failure, as in the source),
and success of mmap (with its errno on failure), madvise and munmap. -/
structure Env where
  thp_status : ThpStatus
  vmpte_before : Int
  mmap_ok : Bool
  mmap_errno : Nat
  madvise_ok : Bool
  vmpte_after : Int
  munmap_ok : Bool

/-- ENOMEM on Linux. -/
def ENOMEM : Nat := 12

/-- EINVAL on Linux. -/
def EINVAL : Nat := 22

/-- Observable outcome of one run of main: the exit code, the size passed to
mmap when mmap was called (none when it never was), whether mmap succeeded,
how many times munmap was called, the touched offsets when the touch loop ran
(and terminated), whether the interactive getchar checkpoint was reached, and
every emitted diagnostic with its stream, in order. -/
structure RunResult where
  exit_code : Nat
  mmap_arg : Option Nat
  mmap_succeeded : Bool
  munmap_count : Nat
  touched : Option (List Nat)
  checkpoint : Bool
  events : List (Fd × Msg)

/-- Faithful translation of main (src lines 139-313) over the Env model.
Control flow in source order: argc check; parse_size with its 0 sentinel
checked at line 154; mode dispatch; huge-page alignment check; THP advisory
warnings (printf, hence stdout); baseline VmPTE probe (fatal on failure);
mmap (fatal on failure, with errno-classified hints for HugeTLB modes);
madvise hints (warn on failure); touch loop; final VmPTE probe (warn on
failure, report otherwise); overhead table; getchar checkpoint; munmap
(warn on failure); exit 0. -/
def main (argv : List (List Char)) (env : Env) : RunResult :=
  match argv with
  | [_prog, size_arg, mode_arg] =>
    let map_size := parse_size size_arg
    if map_size = 0 then
      { exit_code := 1, mmap_arg := none, mmap_succeeded := false,
        munmap_count := 0, touched := none, checkpoint := false,
        events := [(Fd.stderr, Msg.errParseSize)] }
    else
      match mode_config mode_arg with
      | none =>
        { exit_code := 1, mmap_arg := none, mmap_succeeded := false,
          munmap_count := 0, touched := none, checkpoint := false,
          events := [(Fd.stderr, Msg.errInvalidMode)] }
      | some (mode, huge_page_size, touch_step_size) =>
        let ev0 := [(Fd.stdout, Msg.banner mode)]
        if (mode = PageSizeMode.MODE_2M ∨ mode = PageSizeMode.MODE_1G) ∧
            map_size % huge_page_size ≠ 0 then
          { exit_code := 1, mmap_arg := none, mmap_succeeded := false,
            munmap_count := 0, touched := none, checkpoint := false,
            events := ev0 ++ [(Fd.stderr, Msg.errSizeNotAligned)] }
        else
          let ev1 := ev0 ++
            (if (mode = PageSizeMode.MODE_4K ∨ mode = PageSizeMode.MODE_THP) ∧
                env.thp_status = ThpStatus.THP_NEVER then
              [(Fd.stdout, Msg.warnThpNever)] else []) ++
            (if mode = PageSizeMode.MODE_THP ∧
                env.thp_status = ThpStatus.THP_UNKNOWN then
              [(Fd.stdout, Msg.warnThpUnknown)] else [])
          if env.vmpte_before < 0 then
            { exit_code := 1, mmap_arg := none, mmap_succeeded := false,
              munmap_count := 0, touched := none, checkpoint := false,
              events := ev1 ++ [(Fd.stderr, Msg.errInitialVmpte)] }
          else
            let ev2 := ev1 ++ [(Fd.stdout, Msg.initialVmpte),
              (Fd.stdout, Msg.mappingSize), (Fd.stdout, Msg.mappingHeader)]
            if env.mmap_ok = false then
              let hints :=
                if mode = PageSizeMode.MODE_2M ∨ mode = PageSizeMode.MODE_1G then
                  if env.mmap_errno = ENOMEM then [(Fd.stderr, Msg.hintEnomem)]
                  else if env.mmap_errno = EINVAL then [(Fd.stderr, Msg.hintEinval)]
                  else []
                else []
              { exit_code := 1, mmap_arg := some map_size,
                mmap_succeeded := false, munmap_count := 0, touched := none,
                checkpoint := false,
                events := ev2 ++ [(Fd.stderr, Msg.errMmapFailed)] ++ hints }
            else
              let ev3 := ev2 ++
                (if mode = PageSizeMode.MODE_4K then
                  (if env.madvise_ok = false then
                    [(Fd.stderr, Msg.warnMadvNoHugepage)] else [])
                else if mode = PageSizeMode.MODE_THP ∧
                    env.thp_status = ThpStatus.THP_MADVISE then
                  (if env.madvise_ok = false then
                    [(Fd.stderr, Msg.warnMadvHugepage)] else [])
                else [])
              let offsets := touchLoop map_size touch_step_size
              let ev4 := ev3 ++ [(Fd.stdout, Msg.touchingHeader),
                (Fd.stdout, Msg.touchedCount)]
              let ev5 := ev4 ++
                (if env.vmpte_after < 0 then [(Fd.stderr, Msg.warnFinalVmpte)]
                 else [(Fd.stdout, Msg.finalVmpteReport)])
              let ev6 := ev5 ++ [(Fd.stdout, Msg.overheadReport),
                (Fd.stdout, Msg.pidPrompt), (Fd.stdout, Msg.unmapHeader)]
              let ev7 := ev6 ++
                (if env.munmap_ok = false then [(Fd.stderr, Msg.errMunmap)]
                 else [])
              { exit_code := 0, mmap_arg := some map_size,
                mmap_succeeded := true, munmap_count := 1,
                touched := offsets, checkpoint := true, events := ev7 }
  | _ =>
    { exit_code := 1, mmap_arg := none, mmap_succeeded := false,
      munmap_count := 0, touched := none, checkpoint := false,
      events := [(Fd.stderr, Msg.usage)] }

/-- Suffix letters of the size-string grammar in the spec. -/
def isSuffixC (c : Char) : Bool :=
  c = 'K' || c = 'k' || c = 'M' || c = 'm' || c = 'G' || c = 'g'

/-- Spec-side definition for C3, following the claimed grammar: at least one
decimal digit, then an optional single suffix letter, then end of string. -/
def specGrammar (s : List Char) : Bool :=
  !(s.takeWhile isDigitC).isEmpty &&
    (match s.drop (s.takeWhile isDigitC).length with
     | [] => true
     | [c] => isSuffixC c
     | _ => false)

/-- Spec-side definition for the amended C3: the shape of strings the
implementation can accept, which is the claimed grammar extended by the
optional leading whitespace and optional single sign that strtoull consumes.
-/
def extGrammar (s : List Char) : Bool :=
  !((afterSign (afterSpaces s)).takeWhile isDigitC).isEmpty &&
    (match (afterSign (afterSpaces s)).drop
        ((afterSign (afterSpaces s)).takeWhile isDigitC).length with
     | [] => true
     | [c] => isSuffixC c
     | _ => false)

/-- A sample environment in which every probe and every system call
succeeds. -/
def envOk : Env :=
  { thp_status := ThpStatus.THP_ALWAYS, vmpte_before := 40,
    mmap_ok := true, mmap_errno := 0, madvise_ok := true, vmpte_after := 44,
    munmap_ok := true }

/-- A sample environment in which the final VmPTE probe and munmap fail
after a successful mapping. -/
def envFinalFail : Env :=
  { thp_status := ThpStatus.THP_ALWAYS, vmpte_before := 40,
    mmap_ok := true, mmap_errno := 0, madvise_ok := true, vmpte_after := -1,
    munmap_ok := false }

/-- A sample environment with THP policy never and a failing baseline
probe. -/
def envThpNever : Env :=
  { thp_status := ThpStatus.THP_NEVER, vmpte_before := -1,
    mmap_ok := true, mmap_errno := 0, madvise_ok := true, vmpte_after := 44,
    munmap_ok := true }

/-- Spec-side definition for C8: the fatal classes - wrong argument count,
unparsable size, invalid mode token, misaligned size for a huge-page mode,
baseline VmPTE probe failure, mmap failure. -/
def fatalCond (argv : List (List Char)) (env : Env) : Bool :=
  match argv with
  | [_prog, size_arg, mode_arg] =>
    if parse_size size_arg = 0 then true
    else
      match mode_config mode_arg with
      | none => true
      | some (mode, huge_page_size, _) =>
        ((mode == PageSizeMode.MODE_2M || mode == PageSizeMode.MODE_1G) &&
          parse_size size_arg % huge_page_size != 0) ||
        decide (env.vmpte_before < 0) || !env.mmap_ok
  | _ => true

/-- Spec-side definition for the amended C9: the stream each message tag is
written to. The two advisory THP-policy warnings go to stdout (the source
emits them with printf); every other warning or error diagnostic goes to
stderr. -/
def msgStream : Msg → Fd
  | Msg.usage => Fd.stderr
  | Msg.errParseSize => Fd.stderr
  | Msg.errInvalidMode => Fd.stderr
  | Msg.banner _ => Fd.stdout
  | Msg.errSizeNotAligned => Fd.stderr
  | Msg.warnThpNever => Fd.stdout
  | Msg.warnThpUnknown => Fd.stdout
  | Msg.errInitialVmpte => Fd.stderr
  | Msg.initialVmpte => Fd.stdout
  | Msg.mappingSize => Fd.stdout
  | Msg.mappingHeader => Fd.stdout
  | Msg.errMmapFailed => Fd.stderr
  | Msg.hintEnomem => Fd.stderr
  | Msg.hintEinval => Fd.stderr
  | Msg.warnMadvNoHugepage => Fd.stderr
  | Msg.warnMadvHugepage => Fd.stderr
  | Msg.touchingHeader => Fd.stdout
  | Msg.touchedCount => Fd.stdout
  | Msg.warnFinalVmpte => Fd.stderr
  | Msg.finalVmpteReport => Fd.stdout
  | Msg.overheadReport => Fd.stdout
  | Msg.pidPrompt => Fd.stdout
  | Msg.unmapHeader => Fd.stdout
  | Msg.errMunmap => Fd.stderr

/-! Helper lemmas. -/

/-- A digit character is not whitespace and not a sign character. -/
theorem digit_not_space_sign {c : Char} (h : isDigitC c = true) :
    isSpaceC c = false ∧ (c.toNat = 43 || c.toNat = 45) = false ∧
      c.toNat ≠ 45 := by
  simp only [isDigitC, Bool.and_eq_true, decide_eq_true_eq] at h
  exact ⟨by simp [isSpaceC]; omega, by simp; omega, by omega⟩

/-- Ceiling division via the (a + b - 1) / b formula agrees with the
floor-division plus remainder-correction form. -/
theorem ceil_div_eq (t p : Nat) (hp : 0 < p) :
    (t + p - 1) / p = t / p + (if t % p = 0 then 0 else 1) := by
  rcases Nat.eq_zero_or_pos t with ht | ht
  · subst ht
    simp [Nat.div_eq_of_lt (show p - 1 < p by omega)]
  have hqr := Nat.div_add_mod t p
  obtain ⟨q, hq⟩ : ∃ q, t / p = q := ⟨_, rfl⟩
  obtain ⟨r, hr⟩ : ∃ r, t % p = r := ⟨_, rfl⟩
  have hrlt : r < p := hr ▸ Nat.mod_lt _ hp
  rw [hq, hr] at hqr
  rw [hq, hr]
  by_cases h : r = 0
  · subst h
    rw [if_pos rfl, Nat.add_zero] at *
    have hq1 : 0 < q := by
      rcases Nat.eq_zero_or_pos q with h0 | h0
      · rw [h0, Nat.mul_zero] at hqr; omega
      · exact h0
    have hstep : p * q = p * (q - 1) + p := by
      have h1 : q - 1 + 1 = q := by omega
      calc p * q = p * (q - 1 + 1) := by rw [h1]
        _ = p * (q - 1) + p := by rw [Nat.mul_add, Nat.mul_one]
    have ht1 : t + p - 1 = p * (q - 1) + (p + (p - 1)) := by omega
    rw [ht1, Nat.mul_add_div hp, Nat.add_div_left _ hp,
      Nat.div_eq_of_lt (show p - 1 < p by omega)]
    omega
  · rw [if_neg h]
    have ht1 : t + p - 1 = p * q + (r + p - 1) := by omega
    have hrp : r + p - 1 = p + (r - 1) := by omega
    rw [ht1, Nat.mul_add_div hp, hrp, Nat.add_div_left _ hp,
      Nat.div_eq_of_lt (show r - 1 < p by omega)]

/-- A multiplier produced by the suffix block is positive. -/
theorem suffixMult_some_pos {l : List Char} {m : Nat}
    (h : suffixMult l = some m) : 0 < m := by
  unfold suffixMult at h
  match l with
  | [] => simp at h; omega
  | c :: rest =>
    simp only at h
    split at h
    · exact absurd h (by simp)
    · split at h
      · simp at h
        omega
      · exact absurd h (by simp)

/-- The takeWhile of a list of satisfying elements followed by a tail whose
head fails the predicate is exactly the first list. -/
theorem takeWhile_all_head_neg {p : Char → Bool} {l1 l2 : List Char}
    (h1 : ∀ a ∈ l1, p a = true)
    (h2 : ∀ c, l2.head? = some c → p c = false) :
    (l1 ++ l2).takeWhile p = l1 := by
  rw [List.takeWhile_append_of_pos h1]
  match l2 with
  | [] => simp
  | c :: rest =>
    rw [List.takeWhile_cons_of_neg (by simp [h2 c rfl])]
    simp

/-- strtoull on a nonempty run of digits (of value at most ULLONG_MAX)
followed by a non-digit tail: the value is the digit run value, the end
pointer sits right after the digits, and ERANGE is not set. -/
theorem strtoull10_digits (ds tail : List Char) (hne : ds ≠ [])
    (hds : ∀ c ∈ ds, isDigitC c = true)
    (htail : ∀ c, tail.head? = some c → isDigitC c = false)
    (hle : digitsVal ds ≤ ULLONG_MAX) :
    strtoull10 (ds ++ tail) =
      { val := digitsVal ds, consumed := ds.length, erange := false } := by
  obtain ⟨d, ds2, rfl⟩ : ∃ d ds2, ds = d :: ds2 := by
    match ds with
    | [] => exact absurd rfl hne
    | d :: ds2 => exact ⟨d, ds2, rfl⟩
  have hd : isDigitC d = true := hds d (by simp)
  obtain ⟨hsp, hsg, hneg⟩ := digit_not_space_sign hd
  have piece1 : ((d :: ds2) ++ tail).takeWhile isSpaceC = [] := by
    rw [List.cons_append, List.takeWhile_cons_of_neg (by simp [hsp])]
  have pieceA : afterSpaces ((d :: ds2) ++ tail) = (d :: ds2) ++ tail := by
    rw [afterSpaces, piece1]
    simp
  have piece2 : signLen ((d :: ds2) ++ tail) = 0 := by
    rw [List.cons_append, signLen]
    simp [hsg]
  have pieceB : afterSign ((d :: ds2) ++ tail) = (d :: ds2) ++ tail := by
    rw [afterSign, piece2]
    simp
  have piece3 : ((d :: ds2) ++ tail).takeWhile isDigitC = d :: ds2 :=
    takeWhile_all_head_neg hds htail
  have piece4 : isNegSign ((d :: ds2) ++ tail) = false := by
    rw [List.cons_append, isNegSign]
    simp [hneg]
  rw [strtoull10]
  simp only [pieceA, pieceB, piece3, piece1, piece2, piece4]
  rw [if_neg (by simp), if_neg (Nat.not_lt.mpr hle)]
  simp

/-- parse_size_res on a nonempty digit run followed by a non-digit tail
reduces to the suffix, overflow and zero checks on the digit value. -/
theorem parse_size_res_digits (ds tail : List Char) (hne : ds ≠ [])
    (hds : ∀ c ∈ ds, isDigitC c = true)
    (htail : ∀ c, tail.head? = some c → isDigitC c = false)
    (hle : digitsVal ds ≤ ULLONG_MAX) :
    parse_size_res (ds ++ tail) =
      (match suffixMult tail with
       | none => Except.error (suffixErr tail)
       | some multiplier =>
         if ULLONG_MAX / multiplier < digitsVal ds then
           Except.error ParseErr.Overflow
         else if digitsVal ds = 0 then Except.error ParseErr.ZeroSize
         else Except.ok (digitsVal ds * multiplier)) := by
  have hlen : ds.length ≠ 0 := fun h0 => hne (List.length_eq_zero.mp h0)
  rw [parse_size_res]
  rw [strtoull10_digits ds tail hne hds htail hle]
  dsimp only
  rw [if_neg hlen]
  rw [if_neg (by simp)]
  rw [List.drop_left]
  match hm : suffixMult tail with
  | none => rfl
  | some multiplier =>
    dsimp only
    have hmp : 0 < multiplier := suffixMult_some_pos hm
    by_cases hov : ULLONG_MAX / multiplier < digitsVal ds
    · rw [if_pos hov, if_pos hov]
    · rw [if_neg hov, if_neg hov]
      have hbound : digitsVal ds * multiplier ≤ ULLONG_MAX :=
        (Nat.le_div_iff_mul_le hmp).mp (Nat.not_lt.mp hov)
      have hmod : digitsVal ds * multiplier % 2 ^ 64 = digitsVal ds * multiplier := by
        apply Nat.mod_eq_of_lt
        have : ULLONG_MAX < 2 ^ 64 := by rw [ULLONG_MAX]; omega
        omega
      rw [hmod]
      by_cases hz : digitsVal ds = 0
      · rw [if_pos ⟨by rw [hz, Nat.zero_mul], hz⟩, if_pos hz]
      · rw [if_neg (fun hc => hz hc.2), if_neg hz]

/-- The value parse_size_res accepts is never zero. -/
theorem parse_size_res_ok_pos {s : List Char} {n : Nat}
    (h : parse_size_res s = Except.ok n) : 0 < n := by
  rw [parse_size_res] at h
  split at h
  · exact absurd h (by simp)
  split at h
  · exact absurd h (by simp)
  split at h
  · exact absurd h (by simp)
  rename_i multiplier hm
  split at h
  · exact absurd h (by simp)
  split at h
  · exact absurd h (by simp)
  rename_i hov hz
  have hok : (strtoull10 s).val * multiplier % 2 ^ 64 = n := by
    simpa using h
  have hmp : 0 < multiplier := suffixMult_some_pos hm
  have hbound : (strtoull10 s).val * multiplier ≤ ULLONG_MAX :=
    (Nat.le_div_iff_mul_le hmp).mp (Nat.not_lt.mp hov)
  have hmod : (strtoull10 s).val * multiplier % 2 ^ 64 =
      (strtoull10 s).val * multiplier := by
    apply Nat.mod_eq_of_lt
    have : ULLONG_MAX < 2 ^ 64 := by rw [ULLONG_MAX]; omega
    omega
  rw [hmod] at hok
  rcases Nat.eq_zero_or_pos ((strtoull10 s).val) with hv | hv
  · exact absurd ⟨by rw [hv, Nat.zero_mul]; simp, hv⟩ hz
  · have : 0 < (strtoull10 s).val * multiplier := Nat.mul_pos hv hmp
    omega

/-- parse_size returns exactly the accepted value of parse_size_res. -/
theorem parse_size_of_ok {s : List Char} {n : Nat}
    (h : parse_size_res s = Except.ok n) : parse_size s = n := by
  rw [parse_size, h]

/-- parse_size is zero exactly on the failure paths of parse_size_res. -/
theorem parse_size_eq_zero_iff (s : List Char) :
    parse_size s = 0 ↔ ∃ e, parse_size_res s = Except.error e := by
  match h : parse_size_res s with
  | Except.ok n =>
    have hpos := parse_size_res_ok_pos h
    rw [parse_size, h]
    show n = 0 ↔ ∃ e, Except.ok n = Except.error e
    constructor
    · intro h0; omega
    · rintro ⟨e, he⟩
      exact absurd he (by simp)
  | Except.error e =>
    rw [parse_size, h]
    show 0 = 0 ↔ ∃ e2, Except.error e = Except.error e2
    exact ⟨fun _ => ⟨e, rfl⟩, fun _ => rfl⟩

/-- One unrolling step of the ceiling-division count: for a nonempty
remainder d, the count for d is one more than the count for d - step. -/
theorem ceil_div_succ_step {d step : Nat} (hs : 0 < step) (hd : 0 < d) :
    (d + step - 1) / step = (d - step + step - 1) / step + 1 := by
  by_cases h : d ≤ step
  · have h1 : d - step = 0 := by omega
    rw [h1]
    have h2 : d + step - 1 = step + (d - 1) := by omega
    rw [h2, Nat.add_div_left _ hs, Nat.div_eq_of_lt (by omega : d - 1 < step),
      Nat.div_eq_of_lt (by omega : 0 + step - 1 < step)]
  · have h2 : d + step - 1 = (d - step + step - 1) + step := by omega
    rw [h2, Nat.add_div_right _ hs]

/-- The touch loop started at offset i, with enough fuel and no possibility
of a size_t wrap, terminates and touches exactly the offsets i, i + step, ...
below map_size: one per stride-sized interval, ceil((map_size - i)/step) of
them. -/
theorem touchLoopAux_spec (map_size step : Nat) (hs : 0 < step)
    (hw : map_size + step ≤ 2 ^ 64) :
    ∀ fuel i, map_size ≤ i + fuel * step →
      touchLoopAux map_size step i fuel =
        some ((List.range ((map_size - i + step - 1) / step)).map
          (fun j => i + j * step)) := by
  intro fuel
  induction fuel with
  | zero =>
    intro i hfi
    have hni : ¬ i < map_size := by omega
    rw [touchLoopAux, if_neg hni]
    have h0 : map_size - i = 0 := by omega
    rw [h0, Nat.div_eq_of_lt (by omega : 0 + step - 1 < step)]
    simp
  | succ fuel ih =>
    intro i hfi
    by_cases hi : i < map_size
    · have hlt : i + step < 2 ^ 64 := by omega
      have hmul : (fuel + 1) * step = fuel * step + step := by rw [Nat.succ_mul]
      rw [touchLoopAux, if_pos hi, Nat.mod_eq_of_lt hlt,
        ih (i + step) (by omega)]
      have hd : 0 < map_size - i := by omega
      have hsub : map_size - (i + step) = map_size - i - step := by omega
      have hcount : (map_size - i + step - 1) / step =
          (map_size - (i + step) + step - 1) / step + 1 := by
        rw [hsub]
        exact ceil_div_succ_step hs hd
      rw [hcount, List.range_succ_eq_map, List.map_cons, List.map_map]
      simp only [Nat.zero_mul, Nat.add_zero]
      congr 1
      congr 1
      apply List.map_congr_left
      intro j _
      simp [Function.comp, Nat.succ_mul]
      omega
    · rw [touchLoopAux, if_neg hi]
      have h0 : map_size - i = 0 := by omega
      rw [h0, Nat.div_eq_of_lt (by omega : 0 + step - 1 < step)]
      simp

/-- The touch loop of main touches offsets 0, step, 2 * step, ... below
map_size whenever the run cannot wrap (map_size + step fits in size_t). -/
theorem touchLoop_spec (map_size step : Nat) (hs : 0 < step)
    (hw : map_size + step ≤ 2 ^ 64) :
    touchLoop map_size step =
      some ((List.range ((map_size + step - 1) / step)).map
        (fun j => j * step)) := by
  have hfuel : map_size ≤ 0 + (map_size + 1) * step := by
    have h1 : (map_size + 1) * 1 ≤ (map_size + 1) * step :=
      Nat.mul_le_mul_left (map_size + 1) hs
    omega
  rw [touchLoop, touchLoopAux_spec map_size step hs hw (map_size + 1) 0 hfuel]
  simp

/-- After a successful mmap, main always reaches the single munmap and
returns 0: release does not depend on madvise, the final probe or munmap
success. -/
theorem main_release (argv : List (List Char)) (env : Env)
    (h : (main argv env).mmap_succeeded = true) :
    (main argv env).munmap_count = 1 ∧ (main argv env).exit_code = 0 ∧
      (main argv env).checkpoint = true := by
  rcases argv with _ | ⟨a0, argv1⟩
  · simp [main] at h
  rcases argv1 with _ | ⟨a1, argv2⟩
  · simp [main] at h
  rcases argv2 with _ | ⟨a2, argv3⟩
  · simp [main] at h
  rcases argv3 with _ | ⟨a3, rest⟩
  · by_cases hp : parse_size a1 = 0
    · simp [main, hp] at h
    · cases hm : mode_config a2 with
      | none => simp [main, hp, hm] at h
      | some cfg =>
        obtain ⟨mode, hps, tss⟩ := cfg
        by_cases ha : (mode = PageSizeMode.MODE_2M ∨ mode = PageSizeMode.MODE_1G) ∧
            parse_size a1 % hps ≠ 0
        · simp [main, hp, hm, ha] at h
        · by_cases hv : env.vmpte_before < 0
          · simp [main, hp, hm, ha, hv] at h
          · by_cases hmm : env.mmap_ok = false
            · simp [main, hp, hm, ha, hv, hmm] at h
            · simp [main, hp, hm, ha, hv, hmm]
  · simp [main] at h

/-- The exit code of main is 1 exactly on the fatal condition, 0 otherwise,
and every non-fatal run reaches the interactive checkpoint. -/
theorem main_exit_fatal (argv : List (List Char)) (env : Env) :
    (main argv env).exit_code = (if fatalCond argv env = true then 1 else 0) ∧
      (fatalCond argv env = false → (main argv env).checkpoint = true ∧
        (main argv env).munmap_count = 1) := by
  rcases argv with _ | ⟨a0, argv1⟩
  · simp [main, fatalCond]
  rcases argv1 with _ | ⟨a1, argv2⟩
  · simp [main, fatalCond]
  rcases argv2 with _ | ⟨a2, argv3⟩
  · simp [main, fatalCond]
  rcases argv3 with _ | ⟨a3, rest⟩
  · by_cases hp : parse_size a1 = 0
    · simp [main, fatalCond, hp]
    · cases hm : mode_config a2 with
      | none => simp [main, fatalCond, hp, hm]
      | some cfg =>
        obtain ⟨mode, hps, tss⟩ := cfg
        by_cases ha : (mode = PageSizeMode.MODE_2M ∨ mode = PageSizeMode.MODE_1G) ∧
            parse_size a1 % hps ≠ 0
        · simp [main, fatalCond, hp, hm, ha]
        · by_cases hv : env.vmpte_before < 0
          · simp [main, fatalCond, hp, hm, ha, hv]
          · by_cases hmm : env.mmap_ok = false
            · simp [main, fatalCond, hp, hm, ha, hv, hmm]
            · simp [main, fatalCond, hp, hm, ha, hv, hmm]
  · simp [main, fatalCond]

/-- Every event main emits goes to the stream fixed by its message tag. -/
theorem main_events_all (argv : List (List Char)) (env : Env) :
    ((main argv env).events.all (fun q => q.1 == msgStream q.2)) = true := by
  rcases argv with _ | ⟨a0, argv1⟩
  · rfl
  rcases argv1 with _ | ⟨a1, argv2⟩
  · rfl
  rcases argv2 with _ | ⟨a2, argv3⟩
  · rfl
  rcases argv3 with _ | ⟨a3, rest⟩
  · simp only [main]
    repeat' split
    all_goals rfl
  · rfl

/-- Whenever main calls mmap it passes a nonzero size. -/
theorem main_mmap_arg_pos (argv : List (List Char)) (env : Env) (n : Nat)
    (h : (main argv env).mmap_arg = some n) : 0 < n := by
  rcases argv with _ | ⟨a0, argv1⟩
  · simp [main] at h
  rcases argv1 with _ | ⟨a1, argv2⟩
  · simp [main] at h
  rcases argv2 with _ | ⟨a2, argv3⟩
  · simp [main] at h
  rcases argv3 with _ | ⟨a3, rest⟩
  · by_cases hp : parse_size a1 = 0
    · simp [main, hp] at h
    · cases hm : mode_config a2 with
      | none => simp [main, hp, hm] at h
      | some cfg =>
        obtain ⟨mode, hps, tss⟩ := cfg
        by_cases ha : (mode = PageSizeMode.MODE_2M ∨ mode = PageSizeMode.MODE_1G) ∧
            parse_size a1 % hps ≠ 0
        · simp [main, hp, hm, ha] at h
        · by_cases hv : env.vmpte_before < 0
          · simp [main, hp, hm, ha, hv] at h
          · by_cases hmm : env.mmap_ok = false
            · simp [main, hp, hm, ha, hv, hmm] at h
              omega
            · simp [main, hp, hm, ha, hv, hmm] at h
              omega
  · simp [main] at h

/-- Dropping past the whitespace, the sign and n more characters is the same
as dropping n characters from the input seen after whitespace and sign. -/
theorem drop_consumed_aux (s : List Char) (n : Nat) :
    (afterSign (afterSpaces s)).drop n =
      s.drop ((s.takeWhile isSpaceC).length + signLen (afterSpaces s) + n) := by
  rw [afterSign, afterSpaces, List.drop_drop, List.drop_drop, Nat.add_assoc]

/-- A character with a nonzero suffix multiplier is one of the six suffix
letters. -/
theorem isSuffixC_of_mult {c : Char} (h : suffix_multiplier c ≠ 0) :
    isSuffixC c = true := by
  by_cases h1 : c = 'G'
  · subst h1; decide
  by_cases h2 : c = 'g'
  · subst h2; decide
  by_cases h3 : c = 'M'
  · subst h3; decide
  by_cases h4 : c = 'm'
  · subst h4; decide
  by_cases h5 : c = 'K'
  · subst h5; decide
  by_cases h6 : c = 'k'
  · subst h6; decide
  exact absurd (by simp [suffix_multiplier, h1, h2, h3, h4, h5, h6]) h

/-- For a huge-page mode, a parsed size that is not a multiple of the huge
page size makes main exit 1 without calling mmap. -/
theorem main_misaligned (prog s mstr : List Char) (env : Env) (sz : Nat)
    (mode : PageSizeMode) (hps tss : Nat)
    (hmc : mode_config mstr = some (mode, hps, tss))
    (hm2 : mode = PageSizeMode.MODE_2M ∨ mode = PageSizeMode.MODE_1G)
    (hok : parse_size_res s = Except.ok sz)
    (hal : sz % hps ≠ 0) :
    (main [prog, s, mstr] env).exit_code = 1 ∧
      (main [prog, s, mstr] env).mmap_arg = none := by
  have hpse : parse_size s = sz := parse_size_of_ok hok
  have hpos : 0 < sz := parse_size_res_ok_pos hok
  simp only [main, hpse, hmc]
  rw [if_neg hpos.ne', if_pos (⟨hm2, hal⟩ :
    (mode = PageSizeMode.MODE_2M ∨ mode = PageSizeMode.MODE_1G) ∧ sz % hps ≠ 0)]
  exact ⟨rfl, rfl⟩

/-- A size of exactly one 2 MiB huge page with mode 2m passes the alignment
check: whenever the baseline probe succeeds, the run reaches mmap with that
size. -/
theorem main_2m_exact (prog : List Char) (env : Env)
    (hv : ¬ env.vmpte_before < 0) :
    (main [prog, "2M".data, "2m".data] env).mmap_arg = some PAGE_SIZE_2M := by
  have hps : parse_size ("2M".data) = PAGE_SIZE_2M := by decide
  simp only [main, hps]
  rw [if_neg (by decide : ¬ PAGE_SIZE_2M = 0)]
  rw [show mode_config ("2m".data) =
    some (PageSizeMode.MODE_2M, PAGE_SIZE_2M, PAGE_SIZE_2M) from rfl]
  dsimp only
  rw [if_neg (by simp [Nat.mod_self]), if_neg hv]
  by_cases hmm : env.mmap_ok = false
  · rw [if_pos hmm]
  · rw [if_neg hmm]

/-! Claim theorems. -/

/-- C1 counterexample: the claim is false as universally stated. At
total_size = 2^64 - 1 (a value parse_size can return, e.g. for the input -1)
and page_size = 4096, the size_t addition total_size + page_size - 1 wraps
and calculate_overhead returns 0, not ceil(total_size / page_size) * 8. -/
theorem C1_counterexample :
    ¬ (calculate_overhead (2 ^ 64 - 1) 4096 =
        ((2 ^ 64 - 1) / 4096 +
          (if (2 ^ 64 - 1) % 4096 = 0 then 0 else 1)) * PTE_SIZE) := by
  decide

/-- C1 (amended): for every total_size and every page_size > 0 such that
neither the size_t sum total_size + page_size - 1 nor the resulting byte
count overflows 64 bits, calculate_overhead returns
ceil(total_size / page_size) * 8; in particular
calculate_overhead 1048576 4096 = 2048 and
calculate_overhead 1073741824 2097152 = 4096. -/
theorem C1_overhead_amended (total_size page_size : Nat) (hp : 0 < page_size)
    (h1 : total_size + page_size - 1 < 2 ^ 64)
    (h2 : (total_size + page_size - 1) / page_size * PTE_SIZE < 2 ^ 64) :
    calculate_overhead total_size page_size =
      (total_size / page_size +
        (if total_size % page_size = 0 then 0 else 1)) * PTE_SIZE ∧
    calculate_overhead 1048576 4096 = 2048 ∧
    calculate_overhead 1073741824 2097152 = 4096 := by
  refine ⟨?_, by decide, by decide⟩
  rw [calculate_overhead, if_neg (by omega)]
  dsimp only
  rw [Nat.mod_eq_of_lt h1, Nat.mod_eq_of_lt h2,
    ceil_div_eq total_size page_size hp]

/-- C1 witness: the amended theorem applied at total_size 5242880 and
page_size 4096. -/
theorem C1_overhead_amended_witness :
    calculate_overhead 5242880 4096 =
      (5242880 / 4096 + (if 5242880 % 4096 = 0 then 0 else 1)) * PTE_SIZE ∧
    calculate_overhead 1048576 4096 = 2048 ∧
    calculate_overhead 1073741824 2097152 = 4096 :=
  C1_overhead_amended 5242880 4096 (by decide) (by decide) (by decide)

/-- C2: for every size string made of at least one decimal digit and exactly
one suffix letter from K, k, M, m, G, g, parse_size returns the numeric
value multiplied by 1024, 1024 squared or 1024 cubed respectively, provided
the product is nonzero and representable; with no suffix it returns the
numeric value itself; in particular parse_size of 1G is 1073741824, of 256M
is 268435456, and of 512K is 524288. -/
theorem C2_parse_valid :
    (∀ ds : List Char, ds ≠ [] → (∀ c ∈ ds, isDigitC c = true) →
      digitsVal ds ≠ 0 → digitsVal ds ≤ ULLONG_MAX →
      parse_size ds = digitsVal ds) ∧
    (∀ (ds : List Char) (c : Char) (mult : Nat), ds ≠ [] →
      (∀ d ∈ ds, isDigitC d = true) →
      (((c = 'K' ∨ c = 'k') ∧ mult = 1024) ∨
       ((c = 'M' ∨ c = 'm') ∧ mult = 1024 * 1024) ∨
       ((c = 'G' ∨ c = 'g') ∧ mult = 1024 * 1024 * 1024)) →
      digitsVal ds * mult ≠ 0 → digitsVal ds * mult ≤ ULLONG_MAX →
      parse_size (ds ++ [c]) = digitsVal ds * mult) ∧
    parse_size ("1G".data) = 1073741824 ∧
    parse_size ("256M".data) = 268435456 ∧
    parse_size ("512K".data) = 524288 := by
  refine ⟨?_, ?_, by decide, by decide, by decide⟩
  · intro ds hne hds hnz hle
    have hres := parse_size_res_digits ds [] hne hds
      (by intro c hc; simp at hc) hle
    rw [List.append_nil] at hres
    rw [show suffixMult [] = some 1 from rfl] at hres
    dsimp only at hres
    rw [if_neg (by rw [Nat.div_one]; omega), if_neg hnz, Nat.mul_one] at hres
    exact parse_size_of_ok hres
  · intro ds c mult hne hds hc hnz hle
    have hmp : 0 < mult := by
      rcases hc with ⟨_, rfl⟩ | ⟨_, rfl⟩ | ⟨_, rfl⟩ <;> decide
    have hcd : isDigitC c = false := by
      rcases hc with ⟨hc1, _⟩ | ⟨hc1, _⟩ | ⟨hc1, _⟩ <;>
        rcases hc1 with rfl | rfl <;> decide
    have hvle : digitsVal ds ≤ ULLONG_MAX := by
      have h1 : digitsVal ds * 1 ≤ digitsVal ds * mult :=
        Nat.mul_le_mul (Nat.le_refl (digitsVal ds)) hmp
      omega
    have hres := parse_size_res_digits ds [c] hne hds
      (by
        intro x hx
        simp only [List.head?, Option.some.injEq] at hx
        rw [← hx]
        exact hcd) hvle
    have hsm : suffixMult [c] = some mult := by
      rcases hc with ⟨hc1, rfl⟩ | ⟨hc1, rfl⟩ | ⟨hc1, rfl⟩ <;>
        rcases hc1 with rfl | rfl <;> rfl
    rw [hsm] at hres
    dsimp only at hres
    rw [if_neg (Nat.not_lt.mpr ((Nat.le_div_iff_mul_le hmp).mpr hle)),
      if_neg (fun h0 => hnz (by rw [h0, Nat.zero_mul]))] at hres
    exact parse_size_of_ok hres

/-- C2 witness: the two universal parts applied at the digit string 7 with
and without the suffix K. -/
theorem C2_parse_valid_witness :
    parse_size [ '7' ] = digitsVal [ '7' ] ∧
    parse_size ([ '7' ] ++ [ 'K' ]) = digitsVal [ '7' ] * 1024 :=
  ⟨C2_parse_valid.1 [ '7' ] (by decide) (by decide) (by decide) (by decide),
   C2_parse_valid.2.1 [ '7' ] 'K' 1024 (by decide) (by decide)
     (Or.inl ⟨Or.inl rfl, rfl⟩) (by decide) (by decide)⟩

/-- C3 counterexample: the claim is false as stated. The input +1 does not
match the claimed grammar (it has a leading sign and no leading digit), yet
parse_size accepts it, because strtoull consumes leading whitespace and an
optional sign. -/
theorem C3_counterexample :
    specGrammar ("+1".data) = false ∧ parse_size ("+1".data) ≠ 0 := by
  decide

/-- C3 (amended): parse_size accepts only strings of the shape optional
whitespace, then an optional single plus or minus sign, then at least one
decimal digit, then an optional single suffix letter from K, k, M, m, G, g,
then end of string; every input not of that shape fails (parse_size returns
0, refusing the run). -/
theorem C3_grammar_amended (s : List Char) (h : extGrammar s = false) :
    parse_size s = 0 := by
  rw [parse_size]
  cases hres : parse_size_res s with
  | error e => rfl
  | ok n =>
    exfalso
    rw [parse_size_res] at hres
    split at hres
    · exact absurd hres (by simp)
    rename_i hc0
    split at hres
    · exact absurd hres (by simp)
    have hds : ¬ ((afterSign (afterSpaces s)).takeWhile isDigitC).length = 0 := by
      intro h0
      exact hc0 (by rw [strtoull10, if_pos h0])
    have hdse : ((afterSign (afterSpaces s)).takeWhile isDigitC).isEmpty = false := by
      cases hl : (afterSign (afterSpaces s)).takeWhile isDigitC with
      | nil => exact absurd (by rw [hl]; rfl) hds
      | cons a l => rfl
    have hcons : (strtoull10 s).consumed =
        (s.takeWhile isSpaceC).length + signLen (afterSpaces s) +
          ((afterSign (afterSpaces s)).takeWhile isDigitC).length := by
      rw [strtoull10, if_neg hds]
      split <;> rfl
    rw [hcons, ← drop_consumed_aux] at hres
    rcases h2 : (afterSign (afterSpaces s)).drop
        (((afterSign (afterSpaces s)).takeWhile isDigitC).length) with
      _ | ⟨c, _ | ⟨c2, rest⟩⟩
    · rw [extGrammar, h2] at h
      simp [hdse] at h
    · by_cases hsc : suffix_multiplier c = 0
      · rw [h2] at hres
        rw [show suffixMult [c] = none by simp [suffixMult, hsc]] at hres
        exact absurd hres (by simp)
      · rw [extGrammar, h2] at h
        simp [hdse, isSuffixC_of_mult hsc] at h
    · rw [h2] at hres
      rw [show suffixMult (c :: c2 :: rest) = none by
        by_cases hsc : suffix_multiplier c = 0 <;> simp [suffixMult, hsc]] at hres
      exact absurd hres (by simp)

/-- C3 witness: the amended theorem applied to the non-matching input +-3. -/
theorem C3_grammar_amended_witness : parse_size ("+-3".data) = 0 :=
  C3_grammar_amended ("+-3".data) (by decide)

/-- C4: parsing abc fails as an invalid number, 10X as an invalid suffix,
10K5 with trailing garbage after the suffix, and 0 because the resulting
byte count is zero; on each of these size arguments main exits with status 1
without calling mmap, for every mode argument and every environment. -/
theorem C4_parse_errors :
    parse_size_res ("abc".data) = Except.error ParseErr.InvalidNumber ∧
    parse_size_res ("10X".data) = Except.error ParseErr.InvalidSuffix ∧
    parse_size_res ("10K5".data) = Except.error ParseErr.TrailingGarbage ∧
    parse_size_res ("0".data) = Except.error ParseErr.ZeroSize ∧
    (∀ (prog mode_arg bad : List Char) (env : Env),
      (bad = "abc".data ∨ bad = "10X".data ∨ bad = "10K5".data ∨
        bad = "0".data) →
      (main [prog, bad, mode_arg] env).exit_code = 1 ∧
        (main [prog, bad, mode_arg] env).mmap_arg = none) := by
  refine ⟨rfl, rfl, rfl, rfl, ?_⟩
  intro prog mode_arg bad env hbad
  have hz : parse_size bad = 0 := by
    rcases hbad with rfl | rfl | rfl | rfl <;> rfl
  simp [main, hz]

/-- C4 witness: the universal part applied to the input abc with mode thp. -/
theorem C4_parse_errors_witness :
    (main [ [ 'p' ], "abc".data, "thp".data ] envOk).exit_code = 1 ∧
      (main [ [ 'p' ], "abc".data, "thp".data ] envOk).mmap_arg = none :=
  C4_parse_errors.2.2.2.2 [ 'p' ] ("thp".data) ("abc".data) envOk (Or.inl rfl)

/-- C5: the mode-determined strides are 4096 bytes for modes 4k and thp,
2 MiB for 2m and 1 GiB for 1g, and for every mapped size that fits the
address space together with one stride (so the size_t loop counter cannot
wrap), the touch loop writes one byte at each stride multiple below the size
and the final touched count is ceil(map_size / step); e.g. 5 MiB with stride
2 MiB gives 3 touches at offsets 0, 2 MiB and 4 MiB. -/
theorem C5_touch_count (map_size step : Nat) (hs : 0 < step)
    (hw : map_size + step ≤ 2 ^ 64) :
    (∃ offs, touchLoop map_size step = some offs ∧
      offs = (List.range (map_size / step +
        (if map_size % step = 0 then 0 else 1))).map (fun j => j * step) ∧
      offs.length = map_size / step +
        (if map_size % step = 0 then 0 else 1)) ∧
    mode_config ("4k".data) = some (PageSizeMode.MODE_4K, 0, 4096) ∧
    mode_config ("thp".data) = some (PageSizeMode.MODE_THP, 0, 4096) ∧
    mode_config ("2m".data) = some (PageSizeMode.MODE_2M, 2097152, 2097152) ∧
    mode_config ("1g".data) =
      some (PageSizeMode.MODE_1G, 1073741824, 1073741824) ∧
    touchLoop 5242880 2097152 = some [0, 2097152, 4194304] := by
  refine ⟨?_, rfl, rfl, rfl, rfl, by decide⟩
  refine ⟨_, touchLoop_spec map_size step hs hw, ?_, ?_⟩
  · rw [ceil_div_eq map_size step hs]
  · rw [List.length_map, List.length_range, ceil_div_eq map_size step hs]

/-- C5 witness: the theorem applied at map_size 8 and step 4. -/
theorem C5_touch_count_witness :
    (∃ offs, touchLoop 8 4 = some offs ∧
      offs = (List.range (8 / 4 + (if 8 % 4 = 0 then 0 else 1))).map
        (fun j => j * 4) ∧
      offs.length = 8 / 4 + (if 8 % 4 = 0 then 0 else 1)) ∧
    mode_config ("4k".data) = some (PageSizeMode.MODE_4K, 0, 4096) ∧
    mode_config ("thp".data) = some (PageSizeMode.MODE_THP, 0, 4096) ∧
    mode_config ("2m".data) = some (PageSizeMode.MODE_2M, 2097152, 2097152) ∧
    mode_config ("1g".data) =
      some (PageSizeMode.MODE_1G, 1073741824, 1073741824) ∧
    touchLoop 5242880 2097152 = some [0, 2097152, 4194304] :=
  C5_touch_count 8 4 (by decide) (by decide)

/-- C6: for modes 2m and 1g, a parsed size that is not an exact multiple of
the huge page size makes main report the validation error and exit with
status 1 before any mmap call; size 3M with mode 2m is rejected without
mapping, while size exactly 2 MiB with mode 2m passes the check and reaches
mmap whenever the baseline probe succeeds. -/
theorem C6_hugepage_alignment :
    (∀ (prog s : List Char) (env : Env) (sz : Nat),
      parse_size_res s = Except.ok sz → sz % PAGE_SIZE_2M ≠ 0 →
      (main [prog, s, "2m".data] env).exit_code = 1 ∧
        (main [prog, s, "2m".data] env).mmap_arg = none) ∧
    (∀ (prog s : List Char) (env : Env) (sz : Nat),
      parse_size_res s = Except.ok sz → sz % PAGE_SIZE_1G ≠ 0 →
      (main [prog, s, "1g".data] env).exit_code = 1 ∧
        (main [prog, s, "1g".data] env).mmap_arg = none) ∧
    (∀ (prog : List Char) (env : Env),
      (main [prog, "3M".data, "2m".data] env).exit_code = 1 ∧
        (main [prog, "3M".data, "2m".data] env).mmap_arg = none) ∧
    (∀ (prog : List Char) (env : Env), ¬ env.vmpte_before < 0 →
      (main [prog, "2M".data, "2m".data] env).mmap_arg =
        some PAGE_SIZE_2M) := by
  refine ⟨?_, ?_, ?_, ?_⟩
  · intro prog s env sz hok hal
    exact main_misaligned prog s ("2m".data) env sz PageSizeMode.MODE_2M
      PAGE_SIZE_2M PAGE_SIZE_2M rfl (Or.inl rfl) hok hal
  · intro prog s env sz hok hal
    exact main_misaligned prog s ("1g".data) env sz PageSizeMode.MODE_1G
      PAGE_SIZE_1G PAGE_SIZE_1G rfl (Or.inr rfl) hok hal
  · intro prog env
    exact main_misaligned prog ("3M".data) ("2m".data) env 3145728
      PageSizeMode.MODE_2M PAGE_SIZE_2M PAGE_SIZE_2M rfl (Or.inl rfl)
      rfl (by decide)
  · intro prog env hv
    exact main_2m_exact prog env hv

/-- C6 witness: the concrete parts applied with a fixed program name and the
all-success environment. -/
theorem C6_hugepage_alignment_witness :
    ((main [ [ 'p' ], "3M".data, "2m".data ] envOk).exit_code = 1 ∧
      (main [ [ 'p' ], "3M".data, "2m".data ] envOk).mmap_arg = none) ∧
    (main [ [ 'p' ], "2M".data, "2m".data ] envOk).mmap_arg =
      some PAGE_SIZE_2M :=
  ⟨C6_hugepage_alignment.2.2.1 [ 'p' ] envOk,
   C6_hugepage_alignment.2.2.2 [ 'p' ] envOk (by decide)⟩

/-- C7: on every execution path that reaches past a successful mmap, munmap
is called exactly once before the program returns (with exit code 0), for
every argument vector and every environment - including environments where
the final VmPTE probe or the munmap itself fails; release is not conditioned
on measurement success. -/
theorem C7_release (argv : List (List Char)) (env : Env)
    (h : (main argv env).mmap_succeeded = true) :
    (main argv env).munmap_count = 1 ∧ (main argv env).exit_code = 0 :=
  ⟨(main_release argv env h).1, (main_release argv env h).2.1⟩

/-- C7 witness: the theorem applied to a run in which the final VmPTE probe
and munmap both fail. -/
theorem C7_release_witness :
    (main [ [ 'p' ], "1M".data, "thp".data ] envFinalFail).munmap_count = 1 ∧
      (main [ [ 'p' ], "1M".data, "thp".data ] envFinalFail).exit_code = 0 :=
  C7_release [ [ 'p' ], "1M".data, "thp".data ] envFinalFail rfl

/-- C8: the exit status is 1 exactly for the fatal classes captured by
fatalCond (wrong argument count, unparsable size, invalid mode token,
misaligned size for a huge-page mode, baseline VmPTE probe failure, mmap
failure) and 0 for every run that reaches the interactive checkpoint and the
release, regardless of madvise, final-probe or munmap failures (those
environment fields do not occur in fatalCond and the theorem holds for every
environment). -/
theorem C8_exit_codes (argv : List (List Char)) (env : Env) :
    ((main argv env).exit_code =
      (if fatalCond argv env = true then 1 else 0)) ∧
    (fatalCond argv env = false → (main argv env).checkpoint = true ∧
      (main argv env).munmap_count = 1) :=
  main_exit_fatal argv env

/-- C8 witness: the theorem applied to a full successful run (non-fatal, so
exit 0 with checkpoint and release) with a failing final probe. -/
theorem C8_exit_codes_witness :
    ((main [ [ 'p' ], "1M".data, "4k".data ] envFinalFail).exit_code =
      (if fatalCond [ [ 'p' ], "1M".data, "4k".data ] envFinalFail = true
        then 1 else 0)) ∧
    (fatalCond [ [ 'p' ], "1M".data, "4k".data ] envFinalFail = false →
      (main [ [ 'p' ], "1M".data, "4k".data ] envFinalFail).checkpoint = true ∧
      (main [ [ 'p' ], "1M".data, "4k".data ] envFinalFail).munmap_count = 1) :=
  C8_exit_codes [ [ 'p' ], "1M".data, "4k".data ] envFinalFail

/-- C9 counterexample: the claim is false as stated. In a run with mode 4k
and system THP policy never, the advisory THP warning is emitted on standard
output (the source uses printf for it), not on standard error. -/
theorem C9_counterexample :
    (Fd.stdout, Msg.warnThpNever) ∈
      (main [ [ 'p' ], "1M".data, "4k".data ] envThpNever).events ∧
    (Fd.stderr, Msg.warnThpNever) ∉
      (main [ [ 'p' ], "1M".data, "4k".data ] envThpNever).events := by
  decide

/-- C9 (amended): every warning or error diagnostic is written to standard
error except the two advisory THP-policy warnings, which are written to
standard output: every event main emits goes to the stream fixed by
msgStream, which sends the madvise hint-failure warnings, the final-probe
warning and the munmap failure report to stderr and the THP-policy advisories
to stdout. -/
theorem C9_streams_amended :
    (∀ (argv : List (List Char)) (env : Env),
      ∀ p ∈ (main argv env).events, p.1 = msgStream p.2) ∧
    msgStream Msg.warnThpNever = Fd.stdout ∧
    msgStream Msg.warnThpUnknown = Fd.stdout ∧
    msgStream Msg.warnMadvNoHugepage = Fd.stderr ∧
    msgStream Msg.warnMadvHugepage = Fd.stderr ∧
    msgStream Msg.warnFinalVmpte = Fd.stderr ∧
    msgStream Msg.errMunmap = Fd.stderr := by
  refine ⟨?_, rfl, rfl, rfl, rfl, rfl, rfl⟩
  intro argv env p hp
  have hall := main_events_all argv env
  rw [List.all_eq_true] at hall
  exact beq_iff_eq.mp (hall p hp)

/-- C9 witness: the amended theorem applied to a concrete event of a
concrete run. -/
theorem C9_streams_amended_witness :
    (Fd.stdout, Msg.warnThpNever).1 =
      msgStream (Fd.stdout, Msg.warnThpNever).2 :=
  C9_streams_amended.1 [ [ 'p' ], "1M".data, "4k".data ] envThpNever
    (Fd.stdout, Msg.warnThpNever) (by decide)

/-- C10: parse_size uses 0 as its single in-band error sentinel - it returns
0 exactly on the failure paths of parse_size_res and a nonzero value exactly
when the input was accepted - and main treats the 0 return as fatal, so a
requested size of zero bytes can never reach the mapping stage: every size
main passes to mmap is nonzero. -/
theorem C10_zero_sentinel :
    (∀ s : List Char,
      parse_size s = 0 ↔ ∃ e, parse_size_res s = Except.error e) ∧
    (∀ (s : List Char) (n : Nat), parse_size_res s = Except.ok n →
      parse_size s = n ∧ n ≠ 0) ∧
    (∀ (argv : List (List Char)) (env : Env) (n : Nat),
      (main argv env).mmap_arg = some n → n ≠ 0) := by
  refine ⟨parse_size_eq_zero_iff, ?_, ?_⟩
  · intro s n h
    exact ⟨parse_size_of_ok h, (parse_size_res_ok_pos h).ne'⟩
  · intro argv env n h
    exact (main_mmap_arg_pos argv env n h).ne'

/-- C10 witness: the mmap part applied to a concrete successful run mapping
2 MiB. -/
theorem C10_zero_sentinel_witness : (2097152 : Nat) ≠ 0 :=
  C10_zero_sentinel.2.2 [ [ 'p' ], "2M".data, "2m".data ] envOk 2097152 rfl

end MmapEstimator
